import Mathlib

/-!
Verification development for the chewed/chewdoc documentation generator.

The Python sources are shallowly embedded as Lean definitions:
* syntax-tree fragments become the inductive types PyConst, PyExpr, Target, Stmt;
* Python dictionaries that are only read through a fixed set of keys become
  structures with Option-valued fields (none = key missing or value None);
* functions that can raise become Except-valued functions;
* external collaborators that live outside the analysed files
  (process_modules, analyze_relationships, get_package_metadata) are
  parameters: the embedded orchestrator receives their outcome as a value.
-/

namespace Chewed

/-- Python str.isupper for ASCII identifiers: at least one cased character and
no cased character is lower-case.  (Identifiers in this code base are ASCII,
where the cased characters are exactly the letters.) -/
def pyIsUpper (s : String) : Bool :=
  s.data.any (fun c => c.isUpper || c.isLower) && s.data.all (fun c => !c.isLower)

/-- The value carried by a Python ast.Constant node, tagged by type so that
string constants and numeric constants stay distinguishable. -/
inductive PyConst where
  | str (s : String)
  | int (n : Int)
  | bool (b : Bool)
  | noneConst
  | ellipsis
deriving DecidableEq, Repr

/-- Python expression subtrees, covering the node shapes the analysed code
inspects (ast.Name, ast.Constant, ast.Attribute, ast.Subscript, ast.Tuple)
plus a fallback constructor carrying the literal source text of any other
node shape. -/
inductive PyExpr where
  | name (id : String)
  | constant (val : PyConst)
  | attribute (value : PyExpr) (attr : String)
  | subscript (value : PyExpr) (slice : PyExpr)
  | tuple (elts : List PyExpr)
  | other (src : String)

/-- Rendering of a constant by Python ast.unparse. -/
def unparseConst : PyConst → String
  | .str s => "'" ++ s ++ "'"
  | .int n => toString n
  | .bool b => if b then "True" else "False"
  | .noneConst => "None"
  | .ellipsis => "..."

/-- Python ast.unparse restricted to the embedded expression shapes.  A
subscript whose slice is a tuple prints its elements without parentheses
(X[a, b]), as ast.unparse does. -/
def unparse : PyExpr → String
  | .name id => id
  | .constant v => unparseConst v
  | .attribute v a => unparse v ++ "." ++ a
  | .subscript v (.tuple elts) =>
      unparse v ++ "[" ++
        String.intercalate ", " (elts.attach.map (fun e => unparse e.1)) ++ "]"
  | .subscript v s => unparse v ++ "[" ++ unparse s ++ "]"
  | .tuple elts =>
      "(" ++ String.intercalate ", " (elts.attach.map (fun e => unparse e.1)) ++ ")"
  | .other src => src
termination_by e => sizeOf e
decreasing_by
  all_goals simp_wf
  all_goals ((try (have h := List.sizeOf_lt_of_mem e.2)); omega)

/-- chewdoc/config.py ChewdocConfig.  The default field values of the Python
model come from the chewdoc.constants module, which is not among the analysed
files; the defaults used here are immaterial because every theorem quantifies
over the configuration. -/
structure ChewdocConfig where
  exclude_patterns : List String := []
  template_version : String := "0.1"
  known_types : List (String × String) := []
  output_format : String := "myst"
  max_example_lines : Nat := 10
deriving DecidableEq, Repr

/-- chewdoc/utils.py get_annotation.  Only ast.Subscript nodes are treated
specially (recursing into base and slice, joining a tuple slice with
a comma); every other node falls through to ast.unparse.  The Python code
applies .strip() to the unparse result; the embedded unparse never produces
surrounding whitespace, so the strip is a no-op. -/
def get_annotation (node : PyExpr) (config : ChewdocConfig) : String :=
  match node with
  | .subscript v (.tuple elts) =>
      let base := get_annotation v config
      let params :=
        String.intercalate ", " (elts.attach.map (fun e => get_annotation e.1 config))
      base ++ "[" ++ params ++ "]"
  | .subscript v s =>
      let base := get_annotation v config
      base ++ "[" ++ get_annotation s config ++ "]"
  | n => unparse n
termination_by sizeOf node
decreasing_by
  all_goals simp_wf
  all_goals ((try (have h := List.sizeOf_lt_of_mem e.2)); omega)

/-- Modelled from the spec claim for C2: a bare name is claimed to resolve
through the configuration's known_types alias table, falling back to the
identifier itself when the name has no alias entry. -/
def claimedResolveName (config : ChewdocConfig) (id : String) : String :=
  (config.known_types.lookup id).getD id

/-- A configuration whose alias table maps the bare name List to list. -/
def aliasConfig : ChewdocConfig :=
  { known_types := [("List", "list")] }

/-- Bare names fall through get_annotation to ast.unparse. -/
theorem get_annotation_name (id : String) (config : ChewdocConfig) :
    get_annotation (PyExpr.name id) config = id := by
  simp [ get_annotation, unparse]

/-- C2 counterexample: with an alias table mapping List to list, the claimed
resolution of the bare name List is the alias list, but get_annotation
returns the identifier List unchanged — the alias table is never consulted. -/
theorem c2_counterexample :
    get_annotation (PyExpr.name "List") aliasConfig = "List" ∧
    claimedResolveName aliasConfig "List" = "list" ∧
    get_annotation (PyExpr.name "List") aliasConfig ≠
      claimedResolveName aliasConfig "List" := by
  refine ⟨get_annotation_name _ _, by decide, ?_⟩
  rw [get_annotation_name]
  decide

/-- C2 (amended): for every type-expression subtree that is a bare name, the
Annotation Resolver returns the identifier itself, for every configuration;
the known_types alias table is not consulted for bare names. -/
theorem c2_amended_bare_name_is_identity (id : String) (config config' : ChewdocConfig) :
    get_annotation (PyExpr.name id) config = id ∧
    get_annotation (PyExpr.name id) config = get_annotation (PyExpr.name id) config' := by
  constructor
  · exact get_annotation_name id config
  · rw [get_annotation_name, get_annotation_name]

/-! ## Import classification (chewed/core.py, _find_imports) -/

/-- The classification of an ImportEntry. -/
inductive ImportType where
  | stdlib
  | internal
  | external
deriving DecidableEq, Repr

/-- One element of the list built by chewed/core.py _find_imports. -/
structure ImportEntry where
  full_path : String
  type : ImportType
deriving DecidableEq, Repr

/-- An import statement node as seen by ast.walk: either ast.Import with its
alias names, or ast.ImportFrom with its module and alias names. -/
inductive ImportNode where
  | importPlain (names : List String)
  | importFrom (module : String) (names : List String)

/-- Python s.split with separator "." indexed at 0: the text of s before its
first dot, or all of s when it has no dot.  Computed on the character list so
that concrete instances reduce inside the kernel. -/
def firstSegment (s : String) : String :=
  String.mk (s.data.takeWhile (fun c => c != '.'))

/-- Python s.startswith(pre), computed on the character lists. -/
def pyStartsWith (s pre : String) : Bool :=
  pre.data.isPrefixOf s.data

/-- The body of the alias loop in chewed/core.py _find_imports: compute
first_part as the text before the first dot and classify as stdlib when it is
a known standard-library module name, otherwise external. -/
def mkImportEntry (stdlib_modules : List String) (full_path : String) : ImportEntry :=
  let first_part := firstSegment full_path
  let import_type :=
    if first_part ∈ stdlib_modules then ImportType.stdlib else ImportType.external
  { full_path := full_path, type := import_type }

set_option linter.unusedVariables false in
/-- chewed/core.py _find_imports.  The ast.walk traversal yields the
module's import statements in walk order; for an ast.Import the full path is
the alias name, for an ast.ImportFrom it is module.name.  The package_root parameter is
accepted (as in the source) but never read. -/
def _find_imports (stdlib_modules : List String) (package_root : String)
    (nodes : List ImportNode) : List ImportEntry :=
  nodes.flatMap (fun n =>
    match n with
    | .importPlain names => names.map (fun nm => mkImportEntry stdlib_modules nm)
    | .importFrom m names =>
        names.map (fun nm => mkImportEntry stdlib_modules (m ++ "." ++ nm)))

/-- Modelled from the spec claim for C1: if the package name is known and the
full path starts with the package name followed by a dot, the claimed type is
internal; otherwise stdlib when the first dot-delimited segment is a known
standard-library name; otherwise external. -/
def claimedClassification (stdlib_modules : List String) (package : Option String)
    (full_path : String) : ImportType :=
  let stdlibOrExternal :=
    if firstSegment full_path ∈ stdlib_modules then ImportType.stdlib
    else ImportType.external
  match package with
  | some p => if pyStartsWith full_path (p ++ ".") then ImportType.internal
              else stdlibOrExternal
  | none => stdlibOrExternal

/-- C1 counterexample: with package name pkg known and the import target
pkg.sub (whose first segment is not a standard-library name), the claim
requires the internal classification, but _find_imports classifies it as
external. -/
theorem c1_counterexample :
    _find_imports ["sys", "os"] "pkg" [ImportNode.importPlain ["pkg.sub"]]
      = [{ full_path := "pkg.sub", type := ImportType.external }] ∧
    claimedClassification ["sys", "os"] (some "pkg") "pkg.sub" = ImportType.internal ∧
    ImportType.external ≠ ImportType.internal := by
  refine ⟨by decide, by decide, by decide⟩

/-- C1 (amended): every entry extracted by _find_imports is classified as
stdlib exactly when the first dot-delimited segment of its full path is a
known standard-library module name, and as external otherwise; the enclosing
package name plays no role and the internal classification is never
produced. -/
theorem c1_amended_classification (stdlib_modules : List String)
    (package_root : String) (nodes : List ImportNode) (e : ImportEntry)
    (he : e ∈ _find_imports stdlib_modules package_root nodes) :
    e.type = (if firstSegment e.full_path ∈ stdlib_modules
              then ImportType.stdlib else ImportType.external) ∧
    e.type ≠ ImportType.internal := by
  rw [_find_imports, List.mem_flatMap] at he
  obtain ⟨n, -, hn⟩ := he
  have hmk : ∃ fp, e = mkImportEntry stdlib_modules fp := by
    cases n with
    | importPlain names =>
        simp only [List.mem_map] at hn
        obtain ⟨nm, -, rfl⟩ := hn
        exact ⟨nm, rfl⟩
    | importFrom m names =>
        simp only [List.mem_map] at hn
        obtain ⟨nm, -, rfl⟩ := hn
        exact ⟨m ++ "." ++ nm, rfl⟩
  obtain ⟨fp, rfl⟩ := hmk
  unfold mkImportEntry
  by_cases hfp : firstSegment fp ∈ stdlib_modules <;>
    simp [hfp]

/-- C1 witness: the amended classification evaluated on a concrete module
containing one stdlib and one non-stdlib import. -/
theorem c1_amended_classification_witness :
    ({ full_path := "sys.path", type := ImportType.stdlib } : ImportEntry) ∈
      _find_imports ["sys", "os"] "pkg"
        [ImportNode.importFrom "sys" ["path"], ImportNode.importPlain ["requests"]] ∧
    ({ full_path := "sys.path", type := ImportType.stdlib } : ImportEntry).type ≠
      ImportType.internal := by
  refine ⟨by decide, ?_⟩
  exact (c1_amended_classification ["sys", "os"] "pkg"
    [ImportNode.importFrom "sys" ["path"], ImportNode.importPlain ["requests"]]
    { full_path := "sys.path", type := ImportType.stdlib } (by decide)).2

/-! ## Signature formatting (chewdoc/utils.py, format_function_signature) -/

/-- One parameter descriptor of an ast.arguments node: the parameter name
(ast.arg.arg) and its optional annotation subtree (ast.arg.annotation, here
named annot because of lexical restrictions on Lean identifiers). -/
structure Arg where
  arg : String
  annot : Option PyExpr := none

/-- The fields of an ast.arguments node read by format_function_signature:
the positional parameters and the default-value expressions. -/
structure Arguments where
  args : List Arg := []
  defaults : List PyExpr := []

/-- The rendering of one parameter inside the loop of
format_function_signature: start from the name, append a colon and the
resolved annotation when present, then append an equals sign and the
unparsed default when one is paired. -/
def renderParam (config : ChewdocConfig) (a : Arg) (d : Option PyExpr) : String :=
  let arg_str := a.arg
  let arg_str :=
    match a.annot with
    | some ann => arg_str ++ ": " ++ get_annotation ann config
    | none => arg_str
  match d with
  | some dflt => arg_str ++ " = " ++ unparse dflt
  | none => arg_str

/-- chewdoc/utils.py format_function_signature: pad the default list on the
left with None to the length of the parameter list, zip, render each pair,
and append an arrow segment only when a return annotation is present. -/
def format_function_signature (args : Arguments) (returns : Option PyExpr)
    (config : ChewdocConfig) : String :=
  let defaults :=
    List.replicate (args.args.length - args.defaults.length) (none : Option PyExpr)
      ++ args.defaults.map some
  let args_list := (args.args.zip defaults).map (fun p => renderParam config p.1 p.2)
  let return_str :=
    match returns with
    | some r => " -> " ++ get_annotation r config
    | none => ""
  "(" ++ String.intercalate ", " args_list ++ ")" ++ return_str

/-- Modelled from the claim for C5: each parameter renders as its name,
optionally suffixed by a colon and its annotation and optionally by an equals
sign and its default source. -/
def renderParamSpec (config : ChewdocConfig) (a : Arg) (d : Option PyExpr) : String :=
  a.arg
    ++ (match a.annot with
        | some ann => ": " ++ get_annotation ann config
        | none => "")
    ++ (match d with
        | some dflt => " = " ++ unparse dflt
        | none => "")

/-- Modelled from the claim for C5: with n parameters and k defaults, the
defaults pair right-aligned (parameter i receives default i - (n - k), and no
default when i < n - k), and a missing return annotation omits the arrow
segment entirely. -/
def signatureSpec (config : ChewdocConfig) (args : Arguments)
    (returns : Option PyExpr) : String :=
  let n := args.args.length
  let k := args.defaults.length
  let rendered := (List.range n).map (fun i =>
    renderParamSpec config ((args.args.get? i).getD { arg := "" })
      (if i < n - k then none else args.defaults.get? (i - (n - k))))
  "(" ++ String.intercalate ", " rendered ++ ")"
    ++ (match returns with
        | some r => " -> " ++ get_annotation r config
        | none => "")

theorem renderParam_eq_spec (config : ChewdocConfig) (a : Arg) (d : Option PyExpr) :
    renderParam config a d = renderParamSpec config a d := by
  unfold renderParam renderParamSpec
  cases a.annot <;> cases d <;> simp [String.append_assoc]

/-- C5: with k defaults for n parameters, k ≤ n, the formatter output equals
the spec rendering: right-aligned default pairing, name/annotation/default
parameter rendering, and no arrow segment when the return annotation is
absent. -/
theorem c5_signature_formatter (args : Arguments) (returns : Option PyExpr)
    (config : ChewdocConfig) (h : args.defaults.length ≤ args.args.length) :
    format_function_signature args returns config = signatureSpec config args returns := by
  have hlen : (args.args.length - args.defaults.length) + args.defaults.length
      = args.args.length := Nat.sub_add_cancel h
  have hlist : (args.args.zip
        (List.replicate (args.args.length - args.defaults.length) (none : Option PyExpr)
          ++ args.defaults.map some)).map (fun p => renderParam config p.1 p.2)
      = (List.range args.args.length).map (fun i =>
          renderParamSpec config ((args.args.get? i).getD { arg := "" })
            (if i < args.args.length - args.defaults.length then none
             else args.defaults.get? (i - (args.args.length - args.defaults.length)))) := by
    apply List.ext_getElem
    · simp [hlen]
    · intro i h1 h2
      simp only [List.length_map, List.length_zip, List.length_append,
        List.length_replicate, List.length_range, hlen, Nat.min_self] at h1 h2
      simp only [List.getElem_map, List.getElem_zip, List.getElem_range]
      rw [renderParam_eq_spec]
      by_cases hi : i < args.args.length - args.defaults.length
      · rw [List.getElem_append_left (by simpa using hi)]
        simp [hi, List.get?_eq_getElem?, List.getElem?_eq_getElem h1]
      · have hge : args.args.length - args.defaults.length ≤ i := Nat.le_of_not_lt hi
        have hlt : i - (args.args.length - args.defaults.length)
            < args.defaults.length := by omega
        rw [List.getElem_append_right (by simpa using hge)]
        simp only [List.getElem_map]
        simp [hi, List.get?_eq_getElem?, List.getElem?_eq_getElem h1,
          List.getElem?_eq_getElem hlt, List.length_replicate]
  unfold format_function_signature signatureSpec
  simp only [hlist]

/-- C5 witness: the formatter and the spec rendering agree on the signature
(x: int, y: str = 'a') -> bool with one default for two parameters, and the
arrow segment disappears with the return annotation. -/
theorem c5_signature_formatter_witness :
    format_function_signature
        { args := [{ arg := "x", annot := some (PyExpr.name "int") },
                   { arg := "y", annot := some (PyExpr.name "str") }],
          defaults := [PyExpr.constant (PyConst.str "a")] }
        (some (PyExpr.name "bool")) { } = "(x: int, y: str = 'a') -> bool" ∧
    format_function_signature
        { args := [{ arg := "x", annot := some (PyExpr.name "int") },
                   { arg := "y", annot := some (PyExpr.name "str") }],
          defaults := [PyExpr.constant (PyConst.str "a")] }
        none { } = "(x: int, y: str = 'a')" := by
  have h1 := c5_signature_formatter
    { args := [{ arg := "x", annot := some (PyExpr.name "int") },
               { arg := "y", annot := some (PyExpr.name "str") }],
      defaults := [PyExpr.constant (PyConst.str "a")] }
    (some (PyExpr.name "bool")) { } (by decide)
  have h2 := c5_signature_formatter
    { args := [{ arg := "x", annot := some (PyExpr.name "int") },
               { arg := "y", annot := some (PyExpr.name "str") }],
      defaults := [PyExpr.constant (PyConst.str "a")] }
    none { } (by decide)
  rw [h1, h2]
  constructor <;> (simp [signatureSpec, renderParamSpec, get_annotation, unparse,
    unparseConst, List.range_succ]; rfl)

/-! ## MystWriter._format_function_signature
(chewdoc/formatters/myst_writer.py)

The serialized form of an ast.arguments node is a dictionary whose values the
code reads through a fixed set of keys.  Each serialized parameter is itself a
dictionary read only at key arg, embedded as an association list; a top-level
key read with .get and a default cannot raise, so those fields are Option
values, with none for a missing key (or a None value).  The branches of the
Python method that are not exercised by the claims (a serialized returns
dictionary, which is re-parsed outside the try block, and a type-object
constant in returns) are outside this embedding. -/

/-- A Python dictionary read only at string-valued keys. -/
def PyDict := List (String × String)

/-- Accessing d followed by the key k: ok with the value, or the KeyError
payload (the missing key's name) when the key is absent. -/
def lookupKey (d : PyDict) (k : String) : Except String String :=
  match List.lookup k d with
  | some v => Except.ok v
  | none => Except.error k

/-- A Python list comprehension over a fallible element transformation:
elements are transformed left to right and the first raised error
propagates. -/
def mapExcept (f : α → Except ε β) : List α → Except ε (List β)
  | [] => Except.ok []
  | a :: as =>
    match f a with
    | Except.error e => Except.error e
    | Except.ok b =>
      match mapExcept f as with
      | Except.error e => Except.error e
      | Except.ok bs => Except.ok (b :: bs)

/-- The serialized dictionary form of an ast.arguments node. -/
structure SerializedArgs where
  posonlyargs : Option (List PyDict) := none
  args : Option (List PyDict) := none
  vararg : Option PyDict := none
  kwonlyargs : Option (List PyDict) := none
  kw_defaults : Option (List PyExpr) := none
  kwarg : Option PyDict := none
  defaults : Option (List PyExpr) := none

/-- The ast.arguments(...) reconstruction call inside the try block of
MystWriter._format_function_signature.  Keyword arguments evaluate in source
order: posonlyargs, args, vararg, kwonlyargs, kw_defaults, kwarg, defaults.
Each parameter dictionary is read at key arg (producing an ast.arg without
annotation); vararg and kwarg are read only when their dictionary is truthy
(present and non-empty); kw_defaults and defaults are passed through
unread.  The first KeyError aborts the construction carrying the missing
key's name. -/
def reconstructArguments (d : SerializedArgs) : Except String Arguments :=
  match mapExcept (fun a => lookupKey a "arg") (d.posonlyargs.getD []) with
  | Except.error e => Except.error e
  | Except.ok _ =>
    match mapExcept (fun a => lookupKey a "arg") (d.args.getD []) with
    | Except.error e => Except.error e
    | Except.ok argNames =>
      match (match d.vararg with
             | some vd => if vd.isEmpty then Except.ok "" else lookupKey vd "arg"
             | none => Except.ok "") with
      | Except.error e => Except.error e
      | Except.ok _ =>
        match mapExcept (fun a => lookupKey a "arg") (d.kwonlyargs.getD []) with
        | Except.error e => Except.error e
        | Except.ok _ =>
          match (match d.kwarg with
                 | some kd => if kd.isEmpty then Except.ok "" else lookupKey kd "arg"
                 | none => Except.ok "") with
          | Except.error e => Except.error e
          | Except.ok _ =>
            Except.ok { args := argNames.map (fun nm => { arg := nm }),
                        defaults := d.defaults.getD [] }

/-- The args entry of the func_info dictionary handed to
MystWriter._format_function_signature: either a native ast.arguments node or
its serialized dictionary form. -/
inductive ArgsInput where
  | native (a : Arguments)
  | serialized (d : SerializedArgs)

/-- MystWriter._format_function_signature: a serialized parameter list is
reconstructed into a native node — a KeyError surfaces as a ValueError whose
message is Malformed arguments node followed by the quoted missing key — and
the (possibly reconstructed) node is formatted by
utils.format_function_signature. -/
def myst_format_function_signature (config : ChewdocConfig) (args_node : ArgsInput)
    (returns_node : Option PyExpr) : Except String String :=
  match args_node with
  | .native a => Except.ok (format_function_signature a returns_node config)
  | .serialized d =>
    match reconstructArguments d with
    | Except.ok a => Except.ok (format_function_signature a returns_node config)
    | Except.error k => Except.error ("Malformed arguments node: '" ++ k ++ "'")

theorem lookupKey_error (d : PyDict) (k e : String)
    (h : lookupKey d k = Except.error e) : e = k := by
  unfold lookupKey at h
  split at h
  · exact absurd h (by simp)
  · simpa using h.symm

theorem mapExcept_lookup_error (l : List PyDict) (k : String)
    (h : mapExcept (fun a => lookupKey a "arg") l = Except.error k) : k = "arg" := by
  induction l with
  | nil => simp [mapExcept] at h
  | cons a as ih =>
    cases hk : lookupKey a "arg" with
    | error e =>
      simp only [mapExcept, hk] at h
      have he : e = k := by simpa using h
      exact he ▸ lookupKey_error _ _ _ hk
    | ok b =>
      cases hrest : mapExcept (fun x => lookupKey x "arg") as with
      | error e =>
        simp only [mapExcept, hk, hrest] at h
        have he : e = k := by simpa using h
        exact ih (he ▸ hrest)
      | ok bs => simp [mapExcept, hk, hrest] at h

/-- Every failure of the reconstruction carries the key arg: that is the only
key the reconstruction ever reads. -/
theorem reconstructArguments_error_key (d : SerializedArgs) (k : String)
    (h : reconstructArguments d = Except.error k) : k = "arg" := by
  unfold reconstructArguments at h
  repeat' split at h
  all_goals cases h
  all_goals rename_i heq
  all_goals first
    | exact mapExcept_lookup_error _ _ heq
    | (split at heq
       · split at heq
         · exact absurd heq (by simp)
         · exact lookupKey_error _ _ _ heq
       · exact absurd heq (by simp))

/-- C6: for every serialized parameter-list dictionary, if reconstruction
fails then the missing key is arg and the formatter fails with the
malformed-input message naming that key; if the dictionary carries every
expected key, reconstruction succeeds and the output equals the one produced
by formatting the reconstructed native tree node. -/
theorem c6_serialized_signature (d : SerializedArgs) (returns_node : Option PyExpr)
    (config : ChewdocConfig) :
    (∀ a, reconstructArguments d = Except.ok a →
      myst_format_function_signature config (ArgsInput.serialized d) returns_node
        = Except.ok (format_function_signature a returns_node config) ∧
      myst_format_function_signature config (ArgsInput.serialized d) returns_node
        = myst_format_function_signature config (ArgsInput.native a) returns_node) ∧
    (∀ k, reconstructArguments d = Except.error k →
      myst_format_function_signature config (ArgsInput.serialized d) returns_node
        = Except.error "Malformed arguments node: 'arg'") := by
  constructor
  · intro a ha
    simp only [myst_format_function_signature]
    rw [ha]
    exact ⟨rfl, rfl⟩
  · intro k hk
    have hkey := reconstructArguments_error_key d k hk
    simp only [myst_format_function_signature]
    rw [hk, hkey]
    rfl

/-- C6 witness: a serialized form whose second parameter dictionary lacks the
key arg fails with the malformed-input message naming arg, and a complete
serialized form formats exactly like the reconstructed native node. -/
theorem c6_serialized_signature_witness :
    myst_format_function_signature { }
        (ArgsInput.serialized { args := some [[("arg", "x")], []] }) none
      = Except.error "Malformed arguments node: 'arg'" ∧
    myst_format_function_signature { }
        (ArgsInput.serialized
          { args := some [[("arg", "x")], [("arg", "y")]],
            defaults := some [PyExpr.constant (PyConst.int 1)] }) none
      = Except.ok (format_function_signature
          { args := [{ arg := "x" }, { arg := "y" }],
            defaults := [PyExpr.constant (PyConst.int 1)] } none { }) := by
  constructor
  · exact (c6_serialized_signature { args := some [[("arg", "x")], []] } none { }).2
      "arg" (by rfl)
  · exact ((c6_serialized_signature
        { args := some [[("arg", "x")], [("arg", "y")]],
          defaults := some [PyExpr.constant (PyConst.int 1)] } none { }).1
      { args := [{ arg := "x" }, { arg := "y" }],
        defaults := [PyExpr.constant (PyConst.int 1)] } (by rfl)).1

/-! ## Module statements: constant extraction and validation
(chewdoc/utils.py, extract_constant_values and validate_ast) -/

/-- An assignment target: a simple name (ast.Name) or any other target shape
(tuple unpacking, attribute, subscript, ...). -/
inductive Target where
  | name (id : String)
  | otherTarget
deriving DecidableEq, Repr

/-- A top-level statement of a module body, covering the node kinds the
analysed code distinguishes: ast.Assign, ast.FunctionDef, ast.ClassDef,
ast.Expr, and a constructor for every other statement kind (imports, pass,
if, ...).  Function and class bodies carry their own statement lists so that
nested assignments are representable. -/
inductive Stmt where
  | assign (targets : List Target) (value : PyExpr)
  | functionDef (name : String) (body : List Stmt)
  | classDef (name : String) (body : List Stmt)
  | exprStmt (value : PyExpr)
  | otherStmt

/-- chewdoc/utils.py extract_constant_values: iterate over the top-level
statements of the module body only; for each ast.Assign, record every target
that is a simple name in upper case together with the unparsed source of the
assigned expression. -/
def extract_constant_values (body : List Stmt) : List (String × String) :=
  body.flatMap (fun stmt =>
    match stmt with
    | .assign targets value =>
        targets.flatMap (fun t =>
          match t with
          | .name id =>
              if pyIsUpper id then [(id, unparse value)] else []
          | .otherTarget => [])
    | _ => [])

/-- C7: constant extraction records exactly the top-level simple-name
bindings whose name is fully upper case, paired with the textual source of
the assigned expression; the module of the spec scenario with bindings
MAX=10 and _priv=1 plus a function and a class yields only MAX mapped to 10;
and an upper-case assignment nested inside a function body is never
recorded. -/
theorem c7_constant_extraction :
    (∀ (body : List Stmt) (nm val : String),
      (nm, val) ∈ extract_constant_values body ↔
        ∃ targets v, Stmt.assign targets v ∈ body ∧ Target.name nm ∈ targets ∧
          pyIsUpper nm = true ∧ val = unparse v) ∧
    extract_constant_values
      [Stmt.assign [Target.name "MAX"] (PyExpr.constant (PyConst.int 10)),
       Stmt.assign [Target.name "_priv"] (PyExpr.constant (PyConst.int 1)),
       Stmt.functionDef "foo" [],
       Stmt.classDef "Bar" []] = [("MAX", "10")] ∧
    extract_constant_values
      [Stmt.functionDef "f"
        [Stmt.assign [Target.name "NESTED"] (PyExpr.constant (PyConst.int 1))]]
      = [] := by
  refine ⟨?_, ?_, rfl⟩
  · intro body nm val
    unfold extract_constant_values
    rw [List.mem_flatMap]
    constructor
    · rintro ⟨stmt, hstmt, hin⟩
      cases stmt with
      | assign targets v =>
          rw [List.mem_flatMap] at hin
          obtain ⟨t, ht, hint⟩ := hin
          cases t with
          | name id =>
              by_cases hup : pyIsUpper id
              · simp only [hup, if_true, List.mem_singleton] at hint
                obtain ⟨rfl, rfl⟩ := Prod.mk.injEq .. ▸ hint
                exact ⟨targets, v, hstmt, ht, hup, rfl⟩
              · simp [hup] at hint
          | otherTarget => simp at hint
      | functionDef n b => simp at hin
      | classDef n b => simp at hin
      | exprStmt v => simp at hin
      | otherStmt => simp at hin
    · rintro ⟨targets, v, hmem, ht, hup, rfl⟩
      refine ⟨Stmt.assign targets v, hmem, ?_⟩
      rw [List.mem_flatMap]
      exact ⟨Target.name nm, ht, by simp [hup]⟩
  · simp [extract_constant_values, pyIsUpper, unparse, unparseConst]
    rfl

/-- The predicate of the has_elements check in chewdoc/utils.py validate_ast:
the statement is an ast.FunctionDef, ast.ClassDef or ast.Assign. -/
def isElementStmt : Stmt → Bool
  | .functionDef _ _ => true
  | .classDef _ _ => true
  | .assign _ _ => true
  | _ => false

/-- The predicate of the has_docstring check in chewdoc/utils.py
validate_ast: the statement is an ast.Expr whose value is an ast.Constant of
any type. -/
def isDocstringStmt : Stmt → Bool
  | .exprStmt (.constant _) => true
  | _ => false

/-- chewdoc/utils.py validate_ast, restricted to a well-formed module tree.
The preliminary checks of the source (the argument is an AST node, it has a
body attribute, and the body holds no serialized dict or str entries) cannot
fire on the typed embedding, where a module is exactly a list of statement
nodes.  When the body holds no function, class or assignment and no
expression statement over a constant, a ValueError is raised. -/
def validate_ast (body : List Stmt) : Except String Unit :=
  let has_elements := body.any isElementStmt
  if !has_elements then
    let has_docstring := body.any isDocstringStmt
    if !has_docstring then Except.error "Empty or invalid module AST structure"
    else Except.ok ()
  else Except.ok ()

/-- C10: for a module body with no top-level function definition, class
definition or assignment, validate_ast succeeds exactly when some top-level
expression statement carries a literal constant of any type, and otherwise
raises the empty-or-invalid-module ValueError. -/
theorem c10_validate_ast (body : List Stmt)
    (h : body.any isElementStmt = false) :
    (validate_ast body = Except.ok () ↔ ∃ s ∈ body, isDocstringStmt s = true) ∧
    (validate_ast body = Except.error "Empty or invalid module AST structure" ↔
      ¬∃ s ∈ body, isDocstringStmt s = true) := by
  unfold validate_ast
  rw [h]
  by_cases hd : body.any isDocstringStmt
  · rw [hd]
    simp only [List.any_eq_true] at hd
    simp [hd]
  · have hd' : body.any isDocstringStmt = false := by simpa using hd
    rw [hd']
    simp only [List.any_eq_true] at hd
    simp [hd]

/-- C10 witness: a module whose only statement is a bare number literal
passes validation (the constant counts as a docstring even though it is not
a string), while a module holding only an import-like statement fails with
the empty-or-invalid-module error. -/
theorem c10_validate_ast_witness :
    validate_ast [Stmt.exprStmt (PyExpr.constant (PyConst.int 42))] = Except.ok () ∧
    validate_ast [Stmt.otherStmt]
      = Except.error "Empty or invalid module AST structure" := by
  constructor
  · exact (c10_validate_ast [Stmt.exprStmt (PyExpr.constant (PyConst.int 42))]
      (by rfl)).1.mpr ⟨Stmt.exprStmt (PyExpr.constant (PyConst.int 42)), by simp, rfl⟩
  · exact (c10_validate_ast [Stmt.otherStmt] (by rfl)).2.mpr (by simp [isDocstringStmt])

/-! ## Responsibility inference (chewdoc/utils.py, infer_responsibilities) -/

/-- One class/function/constant record as consumed by safe_get_names: only
its name field is read.  none models a record without a name entry; the
empty string models a present but empty name, which Python treats as
falsy. -/
structure Item where
  name : Option String := none
deriving DecidableEq, Repr

/-- A module entry for classes, functions or constants: a mapping keyed by
name, a plain sequence of records, or any other (non-dict, non-list)
value, for which safe_get_names returns no names and whose Python truthiness
is carried explicitly. -/
inductive ItemColl where
  | dict (entries : List (String × Item))
  | list (items : List Item)
  | otherColl (truthy : Bool)
deriving DecidableEq, Repr

/-- The name of one record as read by safe_get_names: v.get(key) must be
truthy (present and non-empty) for the record to contribute. -/
def itemName (i : Item) : Option String :=
  match i.name with
  | some s => if s.isEmpty then none else some s
  | none => none

/-- chewdoc/utils.py safe_get_names: for a dict, read the name field of each
value; for a list, read the name field of each record; anything else yields
no names. -/
def safe_get_names (items : ItemColl) : List String :=
  match items with
  | .dict entries => (entries.map Prod.snd).filterMap itemName
  | .list l => l.filterMap itemName
  | .otherColl _ => []

/-- Python truthiness of module.get(key) for a classes/functions/constants
entry: false for a missing key (or None), an empty dict or an empty list. -/
def collTruthy : Option ItemColl → Bool
  | none => false
  | some (.dict entries) => !entries.isEmpty
  | some (.list l) => !l.isEmpty
  | some (.otherColl t) => t

/-- The module record as read by infer_responsibilities. -/
structure ModuleRecord where
  classes : Option ItemColl := none
  functions : Option ItemColl := none
  constants : Option ItemColl := none

/-- The category block repeated three times in infer_responsibilities: the
prefix followed by the first three names joined with a comma, and a +N more
suffix when more than three names exist. -/
def mkResp (pre : String) (names : List String) : String :=
  let resp := pre ++ String.intercalate ", " (names.take 3)
  if 3 < names.length then
    resp ++ " (+" ++ toString (names.length - 3) ++ " more)"
  else resp

/-- chewdoc/utils.py infer_responsibilities: build one clause per truthy
category (classes, functions, constants, in that order), and join the
collected clauses as bulleted lines after a leading empty string; with no
clause at all, return the fixed generic sentence. -/
def infer_responsibilities (module : ModuleRecord) : String :=
  let responsibilities : List String :=
    (match module.classes with
     | some classes =>
         if collTruthy (some classes) then
           [mkResp "Defines core classes: " (safe_get_names classes)]
         else []
     | none => [])
    ++ (match module.functions with
        | some functions =>
            if collTruthy (some functions) then
              [mkResp "Provides key functions: " (safe_get_names functions)]
            else []
        | none => [])
    ++ (match module.constants with
        | some constants =>
            if collTruthy (some constants) then
              [mkResp "Contains constants: " (safe_get_names constants)]
            else []
        | none => [])
  if responsibilities.isEmpty then
    "General utility module with mixed responsibilities"
  else
    String.intercalate "\n- " ("" :: responsibilities)

/-- Modelled from the claim for C8: a category clause holds at most the first
three names and carries a +N more suffix exactly when more than three names
exist. -/
def clauseSpec (pre : String) (names : List String) : String :=
  pre ++ String.intercalate ", " (names.take 3)
      ++ (if 3 < names.length then
            " (+" ++ toString (names.length - 3) ++ " more)"
          else "")

/-- C8: each category clause equals the spec clause (at most three names,
with a +N more suffix exactly when more than three exist, and the suffix
count is the number of remaining names); names are extracted tolerantly —
a mapping keyed by name and the plain sequence of its value records yield the
same name list; and a module with no truthy classes, functions or constants
entry falls back to the fixed generic sentence. -/
theorem c8_responsibility_inference :
    (∀ pre names, mkResp pre names = clauseSpec pre names) ∧
    (∀ entries : List (String × Item),
      safe_get_names (ItemColl.dict entries)
        = safe_get_names (ItemColl.list (entries.map Prod.snd))) ∧
    (∀ m : ModuleRecord,
      collTruthy m.classes = false → collTruthy m.functions = false →
      collTruthy m.constants = false →
      infer_responsibilities m = "General utility module with mixed responsibilities") := by
  refine ⟨?_, ?_, ?_⟩
  · intro pre names
    unfold mkResp clauseSpec
    by_cases h3 : 3 < names.length <;> simp [h3, String.append_assoc]
  · intro entries
    rfl
  · intro m hc hf hk
    unfold infer_responsibilities
    have hc' : (match m.classes with
        | some classes =>
            if collTruthy (some classes) then
              [mkResp "Defines core classes: " (safe_get_names classes)]
            else []
        | none => ([] : List String)) = [] := by
      cases hcase : m.classes with
      | none => rfl
      | some c => rw [hcase] at hc; simp [hc]
    have hf' : (match m.functions with
        | some functions =>
            if collTruthy (some functions) then
              [mkResp "Provides key functions: " (safe_get_names functions)]
            else []
        | none => ([] : List String)) = [] := by
      cases hcase : m.functions with
      | none => rfl
      | some c => rw [hcase] at hf; simp [hf]
    have hk' : (match m.constants with
        | some constants =>
            if collTruthy (some constants) then
              [mkResp "Contains constants: " (safe_get_names constants)]
            else []
        | none => ([] : List String)) = [] := by
      cases hcase : m.constants with
      | none => rfl
      | some c => rw [hcase] at hk; simp [hk]
    rw [hc', hf', hk']
    rfl

/-- C8 witness: a module whose classes entry is a mapping with four named
records and whose functions entry is a sequence with one record produces the
truncated clause with a +1 more suffix; a module with empty entries yields
the generic sentence. -/
theorem c8_responsibility_inference_witness :
    mkResp "Defines core classes: " ["A", "B", "C", "D"]
      = clauseSpec "Defines core classes: " ["A", "B", "C", "D"] ∧
    safe_get_names (ItemColl.dict
        [("A", { name := some "A" }), ("B", { name := some "B" })])
      = safe_get_names (ItemColl.list [{ name := some "A" }, { name := some "B" }]) ∧
    infer_responsibilities
      { classes := some (ItemColl.list []), functions := none,
        constants := some (ItemColl.dict []) }
      = "General utility module with mixed responsibilities" := by
  refine ⟨c8_responsibility_inference.1 _ _, c8_responsibility_inference.2.1 _, ?_⟩
  exact c8_responsibility_inference.2.2
    { classes := some (ItemColl.list []), functions := none,
      constants := some (ItemColl.dict []) } rfl rfl rfl

/-! ## Fallback package-name derivation
(chewdoc/package_analysis.py, _derive_package_name) -/

/-- The container directory names skipped by _derive_package_name. -/
def genericParts : List String := ["src", "site-packages", "dist-packages"]

/-- The loop of _derive_package_name over the already-reversed part list:
skip generic container names; at the first other part, return the text before
the first hyphen when the part contains one (part.split with a hyphen
indexed at 0), else the part itself; an exhausted list yields
unknown-package.  The Python membership test for a hyphen in the part is
modelled on the character list. -/
def derivePackageNameLoop : List String → String
  | [] => "unknown-package"
  | part :: rest =>
      if part ∈ genericParts then derivePackageNameLoop rest
      else if part.data.contains '-' then
        String.mk (part.data.takeWhile (fun c => c != '-'))
      else part

/-- chewdoc/package_analysis.py _derive_package_name: walk the resolved
path's parts from the last to the first. -/
def _derive_package_name (path_parts : List String) : String :=
  derivePackageNameLoop path_parts.reverse

/-- C9 counterexample: for a path ending in the directory my-pkg-1.2.3 the
claim requires the derived package name my-pkg, but the code splits at the
first hyphen and returns my. -/
theorem c9_counterexample :
    _derive_package_name ["my-pkg-1.2.3"] = "my" ∧
    _derive_package_name ["my-pkg-1.2.3"] ≠ "my-pkg" := by
  constructor
  · rfl
  · decide

/-- C9 (amended): when the last non-generic directory segment (skipping src,
site-packages and dist-packages) contains a hyphen, the fallback derivation
returns the text before the FIRST hyphen, discarding everything after it —
so a directory named my-pkg-1.2.3 yields my, not my-pkg. -/
theorem derivePackageNameLoop_skip (gs l : List String)
    (h : ∀ g ∈ gs, g ∈ genericParts) :
    derivePackageNameLoop (gs ++ l) = derivePackageNameLoop l := by
  induction gs with
  | nil => rfl
  | cons g rest ih =>
      rw [List.cons_append, derivePackageNameLoop]
      rw [if_pos (h g (List.mem_cons_self g rest))]
      exact ih (fun x hx => h x (List.mem_cons_of_mem g hx))

theorem c9_amended_derive_package_name (front : List String) (part : String)
    (trailing : List String)
    (htrail : ∀ g ∈ trailing, g ∈ genericParts)
    (hpart : part ∉ genericParts)
    (hhyph : part.data.contains '-' = true) :
    _derive_package_name (front ++ part :: trailing)
      = String.mk (part.data.takeWhile (fun c => c != '-')) := by
  unfold _derive_package_name
  have hrev : (front ++ part :: trailing).reverse
      = trailing.reverse ++ (part :: front.reverse) := by
    rw [List.reverse_append, List.reverse_cons, List.append_assoc,
      List.singleton_append]
  rw [hrev, derivePackageNameLoop_skip trailing.reverse (part :: front.reverse)
    (fun g hg => htrail g (List.mem_reverse.mp hg))]
  rw [derivePackageNameLoop, if_neg hpart, if_pos hhyph]

/-- C9 amended witness: a path whose last non-generic segment is the
versioned directory my-pkg-1.2.3 followed by a src container derives the
name my. -/
theorem c9_amended_derive_package_name_witness :
    _derive_package_name ["home", "user", "my-pkg-1.2.3", "src"] = "my" := by
  have h := c9_amended_derive_package_name ["home", "user"] "my-pkg-1.2.3" ["src"]
    (by decide) (by decide) (by decide)
  simpa using h

/-! ## Package analysis orchestration (chewed/core.py, analyze_package)

The collaborators called by analyze_package are not among the analysed files
(process_modules lives in chewed/module_processor.py, analyze_relationships
in chewed/relationships.py, get_package_metadata in chewed/metadata.py), so
the orchestrator is embedded as a function of their outcomes: an Except value
stands for a call that either returned or raised.  The inner
try/except around process_modules re-raises any failure — including the
RuntimeError raised for an empty module list — as RuntimeError with the
message No valid modules found, so both paths collapse to the same error
value here. -/

/-- One element of the module list returned by process_modules, as inspected
by analyze_package: the validation step only asks whether the entry is a
dict containing the key name.  hasName is false for a non-dict entry or a
dict without the key. -/
structure ModuleDict where
  name : String := ""
  hasName : Bool := true
deriving DecidableEq, Repr

/-- The relationships structure: the dependency graph and the external
dependency list. -/
structure Relationships where
  dependency_graph : List (String × List String) := []
  external_deps : List String := []
deriving DecidableEq, Repr

/-- The package-level result assembled by analyze_package. -/
structure PackageInfo where
  package : String
  path : String
  modules : List ModuleDict
  relationships : Relationships
  metadata : List (String × String)
deriving DecidableEq, Repr

/-- chewed/core.py analyze_package: fail when the source path does not
exist; fail with No valid modules found when module processing raised or
produced an empty list; drop entries that are not dicts with a name key and
fail with the same message when none survive; run the relationship analysis
and, when it raises, degrade to an empty dependency graph and an empty
external-dependency list instead of failing; finally assemble the package
result. -/
def analyze_package (sourceExists : Bool) (source : String)
    (processResult : Except String (List ModuleDict)) (package_name : String)
    (relResult : Except String Relationships)
    (metadata : List (String × String)) : Except String PackageInfo :=
  if !sourceExists then
    Except.error ("Source path does not exist: " ++ source)
  else
    match processResult with
    | Except.error _ => Except.error "No valid modules found"
    | Except.ok modules =>
      if modules.isEmpty then Except.error "No valid modules found"
      else
        let valid_modules := modules.filter (fun m => m.hasName)
        if valid_modules.isEmpty then Except.error "No valid modules found"
        else
          let relationships :=
            match relResult with
            | Except.ok r => r
            | Except.error _ => { dependency_graph := [], external_deps := [] }
          Except.ok { package := package_name, path := source,
                      modules := valid_modules, relationships := relationships,
                      metadata := metadata }

/-- C3: when module processing succeeded with at least one valid module, a
raising relationship analysis never aborts analyze_package: the result is
still returned, with an empty dependency graph and an empty
external-dependency list in place of the relationships. -/
theorem c3_relationship_degradation (source : String) (mods : List ModuleDict)
    (package_name : String) (e : String) (metadata : List (String × String))
    (h : mods.filter (fun m => m.hasName) ≠ []) :
    analyze_package true source (Except.ok mods) package_name
        (Except.error e) metadata
      = Except.ok { package := package_name, path := source,
                    modules := mods.filter (fun m => m.hasName),
                    relationships := { dependency_graph := [], external_deps := [] },
                    metadata := metadata } := by
  have hmods : ¬mods.isEmpty := by
    intro hempty
    rw [List.isEmpty_iff] at hempty
    subst hempty
    exact h rfl
  unfold analyze_package
  rw [if_neg (by simp)]
  dsimp only
  rw [if_neg (by simpa using hmods)]
  rw [if_neg (by simpa [List.isEmpty_iff] using h)]

/-- C3 witness: with one named module and a failing relationship analysis,
the package analysis returns a result carrying the empty graph. -/
theorem c3_relationship_degradation_witness :
    analyze_package true "/pkg" (Except.ok [{ name := "m" }]) "pkg"
        (Except.error "boom") [("version", "1.0")]
      = Except.ok { package := "pkg", path := "/pkg",
                    modules := [{ name := "m" }],
                    relationships := { dependency_graph := [], external_deps := [] },
                    metadata := [("version", "1.0")] } := by
  exact c3_relationship_degradation "/pkg" [{ name := "m" }] "pkg" "boom"
    [("version", "1.0")] (by decide)

/-- C4: when validation leaves zero usable module records, analyze_package
fails with exactly the message No valid modules found — in particular the
message contains that text — and never returns a package record; the same
error is produced when module processing itself raised. -/
theorem c4_no_valid_modules (source : String) (mods : List ModuleDict)
    (package_name : String) (relResult : Except String Relationships)
    (metadata : List (String × String)) (e : String)
    (h : mods.filter (fun m => m.hasName) = []) :
    analyze_package true source (Except.ok mods) package_name relResult metadata
        = Except.error "No valid modules found" ∧
    (∀ p, analyze_package true source (Except.ok mods) package_name relResult metadata
        ≠ Except.ok p) ∧
    analyze_package true source (Except.error e) package_name relResult metadata
        = Except.error "No valid modules found" := by
  have herr : analyze_package true source (Except.ok mods) package_name
      relResult metadata = Except.error "No valid modules found" := by
    unfold analyze_package
    rw [if_neg (by simp)]
    dsimp only
    by_cases hmods : mods.isEmpty
    · rw [if_pos hmods]
    · rw [if_neg hmods, if_pos (by simpa [List.isEmpty_iff] using h)]
  refine ⟨herr, ?_, ?_⟩
  · intro p hp
    rw [herr] at hp
    cases hp
  · unfold analyze_package
    rw [if_neg (by simp)]

/-- C4 witness: a module list whose only entry lacks a name key aborts the
analysis with the No valid modules found error. -/
theorem c4_no_valid_modules_witness :
    analyze_package true "/pkg" (Except.ok [{ name := "m", hasName := false }])
        "pkg" (Except.ok { }) []
      = Except.error "No valid modules found" := by
  exact (c4_no_valid_modules "/pkg" [{ name := "m", hasName := false }] "pkg"
    (Except.ok { }) [] "boom" (by decide)).1

end Chewed
